import Mathlib

/-!
Shallow embedding of `src/app.py` ("Book Haven", a scrape / analyze /
recommend / order pipeline) together with theorems settling the frozen
claims about it.

Modelling conventions used throughout:

* Python floats are modelled as exact numbers (`ℚ` for scraped prices and
  rating statistics, `ℝ` for the tf-idf similarity computation).
* `np.nan` / pandas missing values are modelled as `Option.none`; a float
  expression whose operand is missing (Python would produce `nan`) is
  likewise `none`.
* A Python exception propagating out of a function is modelled with
  `Except.error`; normal returns are `Except.ok`.
* `requests.get` plus BeautifulSoup page-level parsing is modelled by a
  fetch oracle `ℕ → FetchResult`: either the call raises (network error /
  timeout) or it returns a status code and the list of product-pod entries
  of the page, each entry carrying the raw attribute strings the extractor
  reads (`title`, the price text, the star-rating class token, the image
  `src`).
-/

namespace BookHaven

deriving instance DecidableEq for Except

/-! ## Data model (`BookRecord` of the pipeline) -/

/-- A scraped book record, one dictionary appended to `books` in
`scrape_books_to_scrape`.  `price`/`rating` are `none` when the Python code
stores `np.nan`. -/
structure Book where
  title : String
  price : Option ℚ
  rating : Option ℕ
  source : String
  image : String
deriving DecidableEq, Repr

/-- One `article.product_pod` entry of a catalogue page, carrying exactly the
raw strings the extractor in `scrape_books_to_scrape` reads from the markup. -/
structure RawEntry where
  title : String
  priceText : String
  ratingClass : String
  imgSrc : String
deriving DecidableEq, Repr

/-- Outcome of `requests.get` on one page: the call may raise (connection
error / timeout), or return a response with a status code whose parsed HTML
contains the given product entries. -/
inductive FetchResult where
  | raised : FetchResult
  | response (status : ℕ) (entries : List RawEntry) : FetchResult
deriving DecidableEq, Repr

/-- A Python exception escaping the scraper: either `requests.get` raised, or
`float(cleaned)` raised `ValueError` on a non-empty cleaned price string that
is not a float literal. -/
inductive ScrapeError where
  | networkRaised : ScrapeError
  | valueError (cleaned : String) : ScrapeError
deriving DecidableEq, Repr

/-! ## Fetcher/Extractor (`scrape_books_to_scrape`) -/

/-- The substitution `re.sub(r'[^0-9.]', '', price_text)`: keep only decimal
digits and periods. -/
def cleanPrice (s : String) : String :=
  String.mk (s.toList.filter fun c => c.isDigit || c == '.')

/-- Numeric value of a digit string (empty string contributes `0`). -/
def digitsVal (l : List Char) : ℕ :=
  l.foldl (fun acc c => 10 * acc + (c.toNat - 48)) 0

/-- Split a character list at every `'.'` (the semantics of
`"...".split('.')` / `String.splitOn "."` for a one-character separator). -/
def splitOnDot : List Char → List (List Char)
  | [] => [[]]
  | c :: cs =>
    if c = '.' then [] :: splitOnDot cs
    else
      match splitOnDot cs with
      | [] => [[c]]
      | h :: t => (c :: h) :: t

/-- Python `float(s)` for a string made only of digits and periods: it parses
iff there is at most one period and at least one digit (e.g. `"51.77"`,
`"5."`, `".5"` parse; `"."` or `"1.2.3"` raise `ValueError`). -/
def parseCleaned (s : String) : Option ℚ :=
  let l := s.toList
  if l.count '.' ≤ 1 ∧ l.any Char.isDigit then
    match splitOnDot l with
    | [d] => some (digitsVal d)
    | [d, f] => some ((digitsVal d : ℚ) + (digitsVal f : ℚ) / 10 ^ f.length)
    | _ => none
  else none

/-- Lines 27–29 of `app.py`: clean the price text; the empty cleaned string
gives `np.nan` (missing), otherwise `float(cleaned)` is called and may raise
`ValueError`. -/
def extract_price (priceText : String) : Except ScrapeError (Option ℚ) :=
  let cleaned := cleanPrice priceText
  if cleaned = "" then .ok none
  else
    match parseCleaned cleaned with
    | some q => .ok (some q)
    | none => .error (.valueError cleaned)

/-- The literal `rating_map` dictionary of line 31. -/
def rating_map : List (String × ℕ) :=
  [("One", 1), ("Two", 2), ("Three", 3), ("Four", 4), ("Five", 5)]

/-- `rating_map.get(rating_class, np.nan)`: unrecognized class tokens give a
missing rating. -/
def extract_rating (ratingClass : String) : Option ℕ :=
  rating_map.lookup ratingClass

/-- Left-to-right removal of every (non-overlapping) occurrence of `../`,
the semantics of `src.replace('../', '')`. -/
def removeRelMarkers : List Char → List Char
  | '.' :: '.' :: '/' :: rest => removeRelMarkers rest
  | c :: rest => c :: removeRelMarkers rest
  | [] => []

/-- Line 33: absolute image URL built by prefixing the site base and removing
every `../` from the relative `src`. -/
def extract_image (imgSrc : String) : String :=
  "http://books.toscrape.com/" ++ String.mk (removeRelMarkers imgSrc.toList)

/-- Extraction of one `Book` from one product entry (lines 26–34); the price
step can raise. -/
def extract_record (e : RawEntry) : Except ScrapeError Book := do
  let price ← extract_price e.priceText
  return { title := e.title
           price := price
           rating := extract_rating e.ratingClass
           source := "BooksToScrape"
           image := extract_image e.imgSrc }

/-- Extraction of all records of one page, in document order; the first
raising entry aborts the whole scrape, as in Python. -/
def extract_page (es : List RawEntry) : Except ScrapeError (List Book) :=
  es.mapM extract_record

/-- The page loop of `scrape_books_to_scrape` over an explicit list of page
indices.  A raising fetch propagates immediately (there is no `try` in the
source); a non-200 status hits `continue`; a 200 page contributes its
extracted records in order. -/
def scrapePages (fetch : ℕ → FetchResult) : List ℕ → Except ScrapeError (List Book)
  | [] => .ok []
  | p :: ps =>
    match fetch p with
    | .raised => .error .networkRaised
    | .response status entries =>
      if status ≠ 200 then scrapePages fetch ps
      else do
        let recs ← extract_page entries
        let rest ← scrapePages fetch ps
        return recs ++ rest

/-- Lines 17–35, `scrape_books_to_scrape(pages)`: iterate
`range(1, pages + 1)` over the fetch oracle. -/
def scrape_books_to_scrape (fetch : ℕ → FetchResult) (pages : ℕ) :
    Except ScrapeError (List Book) :=
  scrapePages fetch ((List.range pages).map (· + 1))

/-! ## Aggregator (`analyze_sentiments`) -/

/-- The pandas series of line 51: the ratings of the records whose rating is
present (non-NaN), in record order. -/
def presentRatings (books : List Book) : List ℕ :=
  books.filterMap Book.rating

/-- Python's built-in `round(q, 2)` on an exact value: round to a multiple of
`1/100`, ties to even (banker's rounding). -/
def pyRound2 (q : ℚ) : ℚ :=
  let s := q * 100
  let f := ⌊s⌋
  let n : ℤ :=
    if s - f < 1 / 2 then f
    else if 1 / 2 < s - f then f + 1
    else if 2 ∣ f then f else f + 1
  (n : ℚ) / 100

/-- `Series.mean()`: sum divided by length, `NaN` (here `none`) on the empty
series. -/
def seriesMean (l : List ℕ) : Option ℚ :=
  if l = [] then none else some ((l.map (Nat.cast : ℕ → ℚ)).sum / l.length)

/-- `Series.max()`: the running maximum of the values, `NaN` on the empty
series. -/
def seriesMax : List ℕ → Option ℕ
  | [] => none
  | x :: xs => some (xs.foldl Nat.max x)

/-- `Series.min()`: the running minimum of the values, `NaN` on the empty
series. -/
def seriesMin : List ℕ → Option ℕ
  | [] => none
  | x :: xs => some (xs.foldl Nat.min x)

/-- Insertion step of an ascending insertion sort on `ℕ` (stable; equal keys
keep their relative order). -/
def insertAsc (x : ℕ) : List ℕ → List ℕ
  | [] => [x]
  | y :: ys => if x ≤ y then x :: y :: ys else y :: insertAsc x ys

/-- Ascending sort, modelling pandas `sort_index()`. -/
def sortAsc (l : List ℕ) : List ℕ :=
  l.foldr insertAsc []

/-- `Series.value_counts().sort_index().to_dict()`: each distinct value mapped
to its occurrence count, keys in ascending order (a Python dict ordered by
insertion, here an association list). -/
def value_counts_sorted (l : List ℕ) : List (ℕ × ℕ) :=
  (sortAsc l.dedup).map fun r => (r, l.count r)

/-- The `RatingStats` dictionary returned by `analyze_sentiments`.  `none`
models the `NaN` that pandas yields for mean/max/min of an empty series. -/
structure RatingStats where
  average_rating : Option ℚ
  highest_rating : Option ℕ
  lowest_rating : Option ℕ
  count : ℕ
  rating_distribution : List (ℕ × ℕ)
deriving DecidableEq, Repr

/-- Lines 50–58, `analyze_sentiments(books)`: statistics of the present
ratings.  `round(mean, 2)` of `NaN` stays `NaN`, hence `Option.map`. -/
def analyze_sentiments (books : List Book) : RatingStats :=
  let ratings := presentRatings books
  { average_rating := (seriesMean ratings).map pyRound2
    highest_rating := seriesMax ratings
    lowest_rating := seriesMin ratings
    count := ratings.length
    rating_distribution := value_counts_sorted ratings }

/-- Modelled from the spec (§4.3 Aggregator), for comparison with
`analyze_sentiments`: average = arithmetic mean of present ratings rounded to
2 decimal places, max/min = maximum/minimum of present ratings, count =
number of present ratings, distribution = each distinct present rating mapped
to its occurrence count, ordered by rating ascending. -/
def ratingStatsSpec (books : List Book) : RatingStats :=
  let p := presentRatings books
  { average_rating := some (pyRound2 ((p.map (Nat.cast : ℕ → ℚ)).sum / p.length))
    highest_rating := p.max?
    lowest_rating := p.min?
    count := p.length
    rating_distribution := (p.toFinset.sort (· ≤ ·)).map fun r => (r, p.count r) }

/-! ## Recommender (`recommend_books`)

`TfidfVectorizer(stop_words='english')` followed by
`cosine_similarity(tfidf_matrix, tfidf_matrix)` is embedded with sklearn's
documented defaults: tokens are maximal runs of at least two word characters
of the lowercased text, English stop words are removed from the vocabulary,
term weights are `tf * idf` with the smoothed
`idf = ln((1 + n) / (1 + df)) + 1`, and the cosine similarity of two
documents is their weight-vector dot product divided by the product of the
vector norms (`0` when a vector is zero, as in sklearn, and as given by
Lean's division by zero).  The vocabulary order does not affect any
similarity value, so the sorted-vocabulary detail of sklearn is dropped and
first-occurrence order is used. -/

/-- A word character of sklearn's default token pattern `\w\w+` (ASCII
alphanumerics and underscore). -/
def isWordChar (c : Char) : Bool :=
  c.isAlphanum || c == '_'

/-- Split a character list into maximal runs of word characters, accumulating
the current (reversed) run. -/
def tokenRuns : List Char → List Char → List (List Char)
  | [], acc => if acc = [] then [] else [acc.reverse]
  | c :: cs, acc =>
    if isWordChar c then tokenRuns cs (c :: acc)
    else (if acc = [] then [] else [acc.reverse]) ++ tokenRuns cs []

/-- sklearn tokenization of one title: lowercase, then keep the maximal
word-character runs of length at least two. -/
def tokenize (s : String) : List String :=
  ((tokenRuns (s.toList.map Char.toLower) []).filter fun r => 2 ≤ r.length).map String.mk

/-- sklearn's `ENGLISH_STOP_WORDS` frozen set (the Glasgow IR stop list),
selected by `stop_words='english'`. -/
def stopWords : List String :=
  ["a", "about", "above", "across", "after", "afterwards", "again", "against",
   "all", "almost", "alone", "along", "already", "also", "although", "always",
   "am", "among", "amongst", "amoungst", "amount", "an", "and", "another",
   "any", "anyhow", "anyone", "anything", "anyway", "anywhere", "are",
   "around", "as", "at", "back", "be", "became", "because", "become",
   "becomes", "becoming", "been", "before", "beforehand", "behind", "being",
   "below", "beside", "besides", "between", "beyond", "bill", "both",
   "bottom", "but", "by", "call", "can", "cannot", "cant", "co", "con",
   "could", "couldnt", "cry", "de", "describe", "detail", "do", "done",
   "down", "due", "during", "each", "eg", "eight", "either", "eleven",
   "else", "elsewhere", "empty", "enough", "etc", "even", "ever", "every",
   "everyone", "everything", "everywhere", "except", "few", "fifteen",
   "fifty", "fill", "find", "fire", "first", "five", "for", "former",
   "formerly", "forty", "found", "four", "from", "front", "full", "further",
   "get", "give", "go", "had", "has", "hasnt", "have", "he", "hence", "her",
   "here", "hereafter", "hereby", "herein", "hereupon", "hers", "herself",
   "him", "himself", "his", "how", "however", "hundred", "i", "ie", "if",
   "in", "inc", "indeed", "interest", "into", "is", "it", "its", "itself",
   "keep", "last", "latter", "latterly", "least", "less", "ltd", "made",
   "many", "may", "me", "meanwhile", "might", "mill", "mine", "more",
   "moreover", "most", "mostly", "move", "much", "must", "my", "myself",
   "name", "namely", "neither", "never", "nevertheless", "next", "nine",
   "no", "nobody", "none", "noone", "nor", "not", "nothing", "now",
   "nowhere", "of", "off", "often", "on", "once", "one", "only", "onto",
   "or", "other", "others", "otherwise", "our", "ours", "ourselves", "out",
   "over", "own", "part", "per", "perhaps", "please", "put", "rather", "re",
   "same", "see", "seem", "seemed", "seeming", "seems", "serious", "several",
   "she", "should", "show", "side", "since", "sincere", "six", "sixty", "so",
   "some", "somehow", "someone", "something", "sometime", "sometimes",
   "somewhere", "still", "such", "system", "take", "ten", "than", "that",
   "the", "their", "them", "themselves", "then", "thence", "there",
   "thereafter", "thereby", "therefore", "therein", "thereupon", "these",
   "they", "thick", "thin", "third", "this", "those", "though", "three",
   "through", "throughout", "thru", "thus", "to", "together", "too", "top",
   "toward", "towards", "twelve", "twenty", "two", "un", "under", "until",
   "up", "upon", "us", "very", "via", "was", "we", "well", "were", "what",
   "whatever", "when", "whence", "whenever", "where", "whereafter",
   "whereas", "whereby", "wherein", "whereupon", "wherever", "whether",
   "which", "while", "whither", "who", "whoever", "whole", "whom", "whose",
   "why", "will", "with", "within", "without", "would", "yet", "you",
   "your", "yours", "yourself", "yourselves"]

/-- The terms the vectorizer counts for one title: its tokens with stop words
removed. -/
def docTokens (title : String) : List String :=
  (tokenize title).filter fun t => t ∉ stopWords

/-- The fitted vocabulary: every term occurring in some document.  (sklearn
sorts it alphabetically; the order is irrelevant to every similarity value.) -/
def vocab (titles : List String) : List String :=
  ((titles.map docTokens).flatten).dedup

/-- Raw term frequency of term `t` in document `i`. -/
def tf (titles : List String) (i : ℕ) (t : String) : ℕ :=
  (docTokens (titles.getD i "")).count t

/-- Document frequency of term `t`. -/
def df (titles : List String) (t : String) : ℕ :=
  (titles.filter fun ti => t ∈ docTokens ti).length

/-- Smoothed inverse document frequency,
`idf(t) = ln((1 + n) / (1 + df(t))) + 1` (sklearn `smooth_idf=True`). -/
noncomputable def idf (titles : List String) (t : String) : ℝ :=
  Real.log ((1 + (titles.length : ℝ)) / (1 + (df titles t : ℝ))) + 1

/-- Unnormalized tf-idf weight of term `t` in document `i`. -/
noncomputable def wt (titles : List String) (i : ℕ) (t : String) : ℝ :=
  (tf titles i t : ℝ) * idf titles t

/-- Dot product of the weight vectors of documents `i` and `j`, summed over
the vocabulary. -/
noncomputable def dotV (titles : List String) (i j : ℕ) : ℝ :=
  ((vocab titles).map fun t => wt titles i t * wt titles j t).sum

/-- Entry `(i, j)` of `cosine_similarity(tfidf_matrix, tfidf_matrix)`:
normalized dot product, `0` whenever a row is zero (Lean's `x / 0 = 0`
matches sklearn, which leaves zero rows unnormalized). -/
noncomputable def simMatrix (titles : List String) (i j : ℕ) : ℝ :=
  dotV titles i j / (Real.sqrt (dotV titles i i) * Real.sqrt (dotV titles j j))

/-- Insertion step of a stable descending insertion sort on `(index, score)`
pairs: the inserted pair precedes every pair of the sorted tail whose score
is not larger.  Since the inserted pair is always the earlier one in the
original list, ties keep original order — the semantics of Python's stable
`sorted(..., key=lambda x: x[1], reverse=True)`. -/
noncomputable def insertDesc (x : ℕ × ℝ) : List (ℕ × ℝ) → List (ℕ × ℝ)
  | [] => [x]
  | y :: ys => if y.2 ≤ x.2 then x :: y :: ys else y :: insertDesc x ys

/-- Stable descending sort by score. -/
noncomputable def sortDesc : List (ℕ × ℝ) → List (ℕ × ℝ)
  | [] => []
  | x :: xs => insertDesc x (sortDesc xs)

/-- `list(enumerate(cosine_sim[idx]))`: the full similarity row of document
`i`, self entry included. -/
noncomputable def simRow (titles : List String) (i : ℕ) : List (ℕ × ℝ) :=
  (List.range titles.length).map fun j => (j, simMatrix titles i j)

/-- Line 45, `sorted(sim_scores, key=lambda x: x[1], reverse=True)[1:top_n+1]`
projected to indices: sort the row descending (stable), drop the first
ranked pair, take `top_n`, keep the indices. -/
noncomputable def selectedIdx (titles : List String) (i top_n : ℕ) : List ℕ :=
  (((sortDesc (simRow titles i)).drop 1).take top_n).map Prod.fst

/-- The `ValueError` raised by `TfidfVectorizer.fit_transform` when the
processed corpus yields an empty vocabulary (empty input, or every token a
stop word). -/
inductive VecError where
  | emptyVocabulary : VecError
deriving DecidableEq, Repr

/-- One `{'title': ..., 'recs': [...]}` dictionary of the recommender
output. -/
structure RecEntry where
  title : String
  recs : List String
deriving DecidableEq, Repr

/-- Lines 37–48, `recommend_books(books, top_n=5)`: vectorize the titles
(raising on an empty vocabulary), then for each index emit the titles of the
selected indices. -/
noncomputable def recommend_books (books : List Book) (top_n : ℕ) :
    Except VecError (List RecEntry) :=
  let titles := books.map Book.title
  if vocab titles = [] then .error .emptyVocabulary
  else .ok <| (List.range titles.length).map fun i =>
    { title := titles.getD i ""
      recs := (selectedIdx titles i top_n).map fun j => titles.getD j "" }

/-- Line 64 of the `index` route:
`recommendations = recommend_books(books) if books else []`. -/
noncomputable def index_recommendations (books : List Book) :
    Except VecError (List RecEntry) :=
  if books = [] then .ok [] else recommend_books books 5

/-! ## Presentation layer: `index` statistics guard and `POST /order` total -/

/-- Line 63 of the `index` route:
`stats = analyze_sentiments(books) if books else {}` — `none` models the
empty dict `{}` (statistics absent). -/
def index_stats (books : List Book) : Option RatingStats :=
  if books = [] then none else some (analyze_sentiments books)

/-- Python float addition where `none` is `NaN`: any missing operand poisons
the result. -/
def addPy : Option ℚ → Option ℚ → Option ℚ
  | some a, some b => some (a + b)
  | _, _ => none

/-- Line 177 of the `order` route:
`total = sum([book['price'] for book in books if book['title'] in selected_books])`,
a float sum starting at `0` with no guard against missing prices. -/
def order_total (books : List Book) (selected : List String) : Option ℚ :=
  ((books.filter fun b => b.title ∈ selected).map Book.price).foldl addPy (some 0)

/-! ## Auxiliary predicates and demonstration data -/

/-- Whether `float(cleaned)` on the cleaned price text returns normally
(rather than raising `ValueError`). -/
def priceParses (s : String) : Bool :=
  match extract_price s with
  | .ok _ => true
  | .error _ => false

/-- The entries of a fetch outcome (empty for a raising fetch). -/
def fetchEntries : FetchResult → List RawEntry
  | .raised => []
  | .response _ es => es

/-- A minimal book record titled `"apple"`. -/
def bApple : Book :=
  { title := "apple", price := none, rating := none, source := "BooksToScrape", image := "" }

/-- A minimal book record titled `"banana"`. -/
def bBanana : Book :=
  { title := "banana", price := none, rating := none, source := "BooksToScrape", image := "" }

/-- A book record whose rating is missing (an unrecognized star-rating
class). -/
def bNoRating : Book :=
  { title := "t", price := some 10, rating := none, source := "BooksToScrape", image := "" }

/-- A fetch oracle: page 1 responds 200 with one product entry, every other
page responds 404. -/
def demoFetch : ℕ → FetchResult := fun p =>
  if p = 1 then
    .response 200 [⟨"A Light in the Attic", "£51.77", "Three", "../../media/cache/img.jpg"⟩]
  else .response 404 []

/-- Two books with present integer prices, for the order-total claims. -/
def demoOrderBooks : List Book :=
  [{ title := "b1", price := some 42, rating := some 3, source := "BooksToScrape", image := "" },
   { title := "b2", price := some 7, rating := none, source := "BooksToScrape", image := "" }]

/-- Five books whose ratings are `[3, 5, 4, 4, missing]`, the worked example
of the specification. -/
def demoRatingBooks : List Book :=
  [{ title := "b1", price := none, rating := some 3, source := "BooksToScrape", image := "" },
   { title := "b2", price := none, rating := some 5, source := "BooksToScrape", image := "" },
   { title := "b3", price := none, rating := some 4, source := "BooksToScrape", image := "" },
   { title := "b4", price := none, rating := some 4, source := "BooksToScrape", image := "" },
   { title := "b5", price := none, rating := none, source := "BooksToScrape", image := "" }]

/-! ## Lemmas about the descending stable sort -/

lemma mem_insertDesc {x y : ℕ × ℝ} {l : List (ℕ × ℝ)} :
    y ∈ insertDesc x l ↔ y = x ∨ y ∈ l := by
  induction l with
  | nil => simp [insertDesc]
  | cons a as ih =>
    rw [insertDesc]
    split
    · simp
    · simp [ih]
      tauto

lemma mem_sortDesc {y : ℕ × ℝ} {l : List (ℕ × ℝ)} : y ∈ sortDesc l ↔ y ∈ l := by
  induction l with
  | nil => simp [sortDesc]
  | cons a as ih => rw [sortDesc, mem_insertDesc, ih]; simp

lemma insertDesc_eq_cons {x : ℕ × ℝ} {l : List (ℕ × ℝ)} (h : ∀ b ∈ l, b.2 ≤ x.2) :
    insertDesc x l = x :: l := by
  cases l with
  | nil => rfl
  | cons y ys => rw [insertDesc, if_pos (h y (List.mem_cons_self y ys))]

/-- A pair whose score strictly dominates everything before it and weakly
dominates everything after it is placed at the head by the stable descending
sort, the rest being the sort of the remaining pairs. -/
lemma sortDesc_max_cons (A B : List (ℕ × ℝ)) (x : ℕ × ℝ)
    (hA : ∀ a ∈ A, a.2 < x.2) (hB : ∀ b ∈ B, b.2 ≤ x.2) :
    sortDesc (A ++ x :: B) = x :: sortDesc (A ++ B) := by
  induction A with
  | nil =>
    simp only [List.nil_append, sortDesc]
    exact insertDesc_eq_cons fun b hb => hB b (mem_sortDesc.mp hb)
  | cons a A' ih =>
    simp only [List.cons_append, sortDesc, List.append_eq]
    rw [ih fun a' ha' => hA a' (List.mem_cons_of_mem _ ha')]
    rw [insertDesc, if_neg (not_le.mpr (hA a (List.mem_cons_self a A')))]

lemma range_map_decomp {α : Type} (n i : ℕ) (hi : i < n) (f : ℕ → α) :
    (List.range n).map f =
      ((List.range i).map f) ++ f i :: ((List.range (n - i - 1)).map fun t => f (i + t + 1)) := by
  obtain ⟨k, rfl⟩ : ∃ k, n = i + (k + 1) := ⟨n - i - 1, by omega⟩
  have hk : i + (k + 1) - i - 1 = k := by omega
  rw [hk, List.range_add, List.map_append]
  congr 1
  rw [List.range_succ_eq_map]
  simp only [List.map_cons, List.map_map]
  congr 1

/-- Every index selected by `selectedIdx` is a valid document index. -/
lemma selectedIdx_mem_lt {titles : List String} {i top_n k : ℕ}
    (hk : k ∈ selectedIdx titles i top_n) : k < titles.length := by
  rw [selectedIdx] at hk
  obtain ⟨p, hp, rfl⟩ := List.mem_map.mp hk
  have hp1 : p ∈ (sortDesc (simRow titles i)).drop 1 := List.mem_of_mem_take hp
  have hp2 : p ∈ sortDesc (simRow titles i) := List.mem_of_mem_drop hp1
  have hp3 : p ∈ simRow titles i := mem_sortDesc.mp hp2
  rw [simRow] at hp3
  obtain ⟨j, hj, rfl⟩ := List.mem_map.mp hp3
  exact List.mem_range.mp hj

/-! ## Lemmas about the similarity matrix -/

lemma dotV_comm (titles : List String) (i j : ℕ) : dotV titles i j = dotV titles j i := by
  rw [dotV, dotV]
  congr 1
  exact List.map_congr_left fun t _ => mul_comm _ _

lemma dotV_self_nonneg (titles : List String) (i : ℕ) : 0 ≤ dotV titles i i := by
  rw [dotV]
  apply List.sum_nonneg
  intro x hx
  obtain ⟨t, _, rfl⟩ := List.mem_map.mp hx
  exact mul_self_nonneg _

/-! ## Concrete similarity values for the demonstration title lists -/

lemma log32_pos : (0 : ℝ) < Real.log (3 / 2) + 1 := by
  have h := Real.log_nonneg (by norm_num : (1 : ℝ) ≤ 3 / 2)
  linarith

lemma idf_ab_apple : idf ["apple", "banana"] "apple" = Real.log (3 / 2) + 1 := by
  have hdf : df ["apple", "banana"] "apple" = 1 := by decide
  rw [idf, hdf]
  norm_num

lemma idf_ab_banana : idf ["apple", "banana"] "banana" = Real.log (3 / 2) + 1 := by
  have hdf : df ["apple", "banana"] "banana" = 1 := by decide
  rw [idf, hdf]
  norm_num

lemma dotV_ab_00 :
    dotV ["apple", "banana"] 0 0 = (Real.log (3 / 2) + 1) * (Real.log (3 / 2) + 1) := by
  have hv : vocab ["apple", "banana"] = ["apple", "banana"] := by decide
  have t0a : tf ["apple", "banana"] 0 "apple" = 1 := by decide
  have t0b : tf ["apple", "banana"] 0 "banana" = 0 := by decide
  rw [dotV, hv]
  simp [wt, t0a, t0b, idf_ab_apple, idf_ab_banana]

lemma dotV_ab_11 :
    dotV ["apple", "banana"] 1 1 = (Real.log (3 / 2) + 1) * (Real.log (3 / 2) + 1) := by
  have hv : vocab ["apple", "banana"] = ["apple", "banana"] := by decide
  have t1a : tf ["apple", "banana"] 1 "apple" = 0 := by decide
  have t1b : tf ["apple", "banana"] 1 "banana" = 1 := by decide
  rw [dotV, hv]
  simp [wt, t1a, t1b, idf_ab_apple, idf_ab_banana]

lemma dotV_ab_01 : dotV ["apple", "banana"] 0 1 = 0 := by
  have hv : vocab ["apple", "banana"] = ["apple", "banana"] := by decide
  have t0a : tf ["apple", "banana"] 0 "apple" = 1 := by decide
  have t0b : tf ["apple", "banana"] 0 "banana" = 0 := by decide
  have t1a : tf ["apple", "banana"] 1 "apple" = 0 := by decide
  have t1b : tf ["apple", "banana"] 1 "banana" = 1 := by decide
  rw [dotV, hv]
  simp [wt, t0a, t0b, t1a, t1b]

lemma dotV_ab_00_ne_zero : dotV ["apple", "banana"] 0 0 ≠ 0 := by
  rw [dotV_ab_00]
  exact ne_of_gt (mul_pos log32_pos log32_pos)

lemma simMatrix_ab_00 : simMatrix ["apple", "banana"] 0 0 = 1 := by
  rw [simMatrix, dotV_ab_00, Real.sqrt_mul_self (le_of_lt log32_pos)]
  exact div_self (by positivity)

lemma simMatrix_ab_01 : simMatrix ["apple", "banana"] 0 1 = 0 := by
  rw [simMatrix, dotV_ab_01]
  exact zero_div _

lemma simMatrix_ab_11 : simMatrix ["apple", "banana"] 1 1 = 1 := by
  rw [simMatrix, dotV_ab_11, Real.sqrt_mul_self (le_of_lt log32_pos)]
  exact div_self (by positivity)

lemma simMatrix_ab_10 : simMatrix ["apple", "banana"] 1 0 = 0 := by
  rw [simMatrix, dotV_comm ["apple", "banana"] 1 0, dotV_ab_01]
  exact zero_div _

lemma selectedIdx_ab_0 : selectedIdx ["apple", "banana"] 0 5 = [1] := by
  have h : simRow ["apple", "banana"] 0 = [(0, 1), (1, 0)] := by
    simp [simRow, List.range_succ, simMatrix_ab_00, simMatrix_ab_01]
  rw [selectedIdx, h]
  norm_num [sortDesc, insertDesc]

lemma selectedIdx_ab_1 : selectedIdx ["apple", "banana"] 1 5 = [0] := by
  have h : simRow ["apple", "banana"] 1 = [(0, 0), (1, 1)] := by
    simp [simRow, List.range_succ, simMatrix_ab_10, simMatrix_ab_11]
  rw [selectedIdx, h]
  norm_num [sortDesc, insertDesc]

lemma idf_aa_apple : idf ["apple", "apple"] "apple" = 1 := by
  have hdf : df ["apple", "apple"] "apple" = 2 := by decide
  rw [idf, hdf]
  norm_num

lemma dotV_aa (i j : ℕ) (hi : i < 2) (hj : j < 2) : dotV ["apple", "apple"] i j = 1 := by
  have hv : vocab ["apple", "apple"] = ["apple"] := by decide
  have t : ∀ k, k < 2 → tf ["apple", "apple"] k "apple" = 1 := by decide
  rw [dotV, hv]
  simp [wt, t i hi, t j hj, idf_aa_apple]

lemma simMatrix_aa (i j : ℕ) (hi : i < 2) (hj : j < 2) :
    simMatrix ["apple", "apple"] i j = 1 := by
  rw [simMatrix, dotV_aa i j hi hj, dotV_aa i i hi hi, dotV_aa j j hj hj]
  simp

lemma selectedIdx_aa_0 : selectedIdx ["apple", "apple"] 0 5 = [1] := by
  have h : simRow ["apple", "apple"] 0 = [(0, 1), (1, 1)] := by
    simp [simRow, List.range_succ, simMatrix_aa 0 0 (by norm_num) (by norm_num),
      simMatrix_aa 0 1 (by norm_num) (by norm_num)]
  rw [selectedIdx, h]
  norm_num [sortDesc, insertDesc]

lemma selectedIdx_aa_1 : selectedIdx ["apple", "apple"] 1 5 = [1] := by
  have h : simRow ["apple", "apple"] 1 = [(0, 1), (1, 1)] := by
    simp [simRow, List.range_succ, simMatrix_aa 1 0 (by norm_num) (by norm_num),
      simMatrix_aa 1 1 (by norm_num) (by norm_num)]
  rw [selectedIdx, h]
  norm_num [sortDesc, insertDesc]

lemma simMatrix_ta_00 : simMatrix ["the", "apple"] 0 0 = 0 := by
  have hv : vocab ["the", "apple"] = ["apple"] := by decide
  have t0 : tf ["the", "apple"] 0 "apple" = 0 := by decide
  have h : dotV ["the", "apple"] 0 0 = 0 := by
    rw [dotV, hv]
    simp [wt, t0]
  rw [simMatrix, h]
  exact zero_div _

/-! ## Evaluations of the recommender on the demonstration book lists -/

lemma recommend_aa : recommend_books [bApple, bApple] 5 =
    .ok [⟨"apple", ["apple"]⟩, ⟨"apple", ["apple"]⟩] := by
  rw [recommend_books]
  have hm : [bApple, bApple].map Book.title = ["apple", "apple"] := rfl
  simp only [hm]
  rw [if_neg (by decide : ¬(vocab ["apple", "apple"] = []))]
  simp [List.range_succ, selectedIdx_aa_0, selectedIdx_aa_1]

lemma recommend_ab : recommend_books [bApple, bBanana] 5 =
    .ok [⟨"apple", ["banana"]⟩, ⟨"banana", ["apple"]⟩] := by
  rw [recommend_books]
  have hm : [bApple, bBanana].map Book.title = ["apple", "banana"] := rfl
  simp only [hm]
  rw [if_neg (by decide : ¬(vocab ["apple", "banana"] = []))]
  simp [List.range_succ, selectedIdx_ab_0, selectedIdx_ab_1]

/-! ## Lemmas about the order total -/

lemma foldl_addPy_none (l : List (Option ℚ)) : l.foldl addPy none = none := by
  induction l with
  | nil => rfl
  | cons x xs ih => rw [List.foldl_cons, show addPy none x = none from rfl, ih]

lemma foldl_addPy (l : List (Option ℚ)) (a : ℚ) :
    l.foldl addPy (some a) =
      if l.all Option.isSome then some (a + (l.filterMap id).sum) else none := by
  induction l generalizing a with
  | nil => simp
  | cons x xs ih =>
    cases x with
    | none => simp [addPy, foldl_addPy_none]
    | some b =>
      rw [List.foldl_cons, show addPy (some a) (some b) = some (a + b) from rfl, ih]
      by_cases hall : xs.all Option.isSome
      · simp [hall, add_assoc]
      · simp [hall]

/-! ## Lemmas about the scraper -/

lemma extract_page_ok (es : List RawEntry) (h : ∀ e ∈ es, priceParses e.priceText = true) :
    ∃ bs, extract_page es = .ok bs := by
  induction es with
  | nil => exact ⟨[], rfl⟩
  | cons e es ih =>
    obtain ⟨bs, hbs⟩ := ih fun e' he' => h e' (List.mem_cons_of_mem _ he')
    have hp := h e (List.mem_cons_self _ _)
    rw [priceParses] at hp
    cases hq : extract_price e.priceText with
    | error err => rw [hq] at hp; simp at hp
    | ok q =>
      rw [extract_page] at hbs ⊢
      refine ⟨Book.mk e.title q (extract_rating e.ratingClass) "BooksToScrape"
        (extract_image e.imgSrc) :: bs, ?_⟩
      rw [List.mapM_cons]
      simp only [extract_record, hq, hbs]
      rfl

lemma scrapePages_ok (fetch : ℕ → FetchResult) (ps : List ℕ)
    (hraise : ∀ p ∈ ps, fetch p ≠ .raised)
    (hprice : ∀ p ∈ ps, ∀ e ∈ fetchEntries (fetch p), priceParses e.priceText = true) :
    ∃ books, scrapePages fetch ps = .ok books := by
  induction ps with
  | nil => exact ⟨[], rfl⟩
  | cons p ps ih =>
    obtain ⟨rest, hrest⟩ := ih (fun q hq => hraise q (List.mem_cons_of_mem _ hq))
      (fun q hq => hprice q (List.mem_cons_of_mem _ hq))
    cases hf : fetch p with
    | raised => exact absurd hf (hraise p (List.mem_cons_self _ _))
    | response status entries =>
      rw [scrapePages, hf]
      dsimp only
      by_cases hs : status ≠ 200
      · rw [if_pos hs]
        exact ⟨rest, hrest⟩
      · rw [if_neg hs]
        have hpe : ∀ e ∈ entries, priceParses e.priceText = true := by
          have h2 := hprice p (List.mem_cons_self _ _)
          rw [hf] at h2
          exact h2
        obtain ⟨bs, hbs⟩ := extract_page_ok entries hpe
        refine ⟨bs ++ rest, ?_⟩
        simp only [hbs, hrest]
        rfl

/-! ## Lemmas about the aggregator -/

lemma insertAsc_eq_orderedInsert (x : ℕ) (l : List ℕ) :
    insertAsc x l = List.orderedInsert (· ≤ ·) x l := by
  induction l with
  | nil => rfl
  | cons y ys ih =>
    rw [insertAsc, List.orderedInsert, ih]

lemma sortAsc_eq_insertionSort (l : List ℕ) :
    sortAsc l = List.insertionSort (· ≤ ·) l := by
  induction l with
  | nil => rfl
  | cons y ys ih =>
    rw [sortAsc, List.foldr_cons, List.insertionSort]
    rw [show ys.foldr insertAsc [] = sortAsc ys from rfl, ih, insertAsc_eq_orderedInsert]

lemma sortAsc_dedup_eq_sort (l : List ℕ) :
    sortAsc l.dedup = l.toFinset.sort (· ≤ ·) := by
  refine List.eq_of_perm_of_sorted ?_ ?_ (Finset.sort_sorted _ _)
  · refine List.Perm.trans ?_ (List.perm_of_nodup_nodup_toFinset_eq (List.nodup_dedup l)
      (Finset.sort_nodup _ _) ?_)
    · rw [sortAsc_eq_insertionSort]
      exact List.perm_insertionSort _ _
    · rw [Finset.sort_toFinset]
      ext a
      simp [List.mem_dedup]
  · rw [sortAsc_eq_insertionSort]
    exact List.sorted_insertionSort _ _

lemma seriesMax_eq (l : List ℕ) : seriesMax l = l.max? := by
  cases l <;> rfl

lemma seriesMin_eq (l : List ℕ) : seriesMin l = l.min? := by
  cases l <;> rfl

/-- The list of the default values of a list read back through `getD` over
its index range is the list itself. -/
lemma map_range_getD {α : Type} (l : List α) (d : α) :
    (List.range l.length).map (fun i => l.getD i d) = l := by
  apply List.ext_getElem
  · simp
  · intro i h1 h2
    simp only [List.getElem_map, List.getElem_range]
    rw [List.getD_eq_getElem l d h2]

/-! ## Claim C1 -/

/-- Claim C1, counterexample: a fetch oracle whose first page raises a
network error makes `scrape_books_to_scrape` propagate the exception
(`Except.error`) instead of returning a sequence, refuting "no exception
propagates to the caller". -/
theorem C1_counterexample :
    scrape_books_to_scrape (fun _ => .raised) 1 = .error .networkRaised := rfl

/-- Claim C1, amended: non-200 statuses are non-fatal (the page is skipped
and contributes zero records), and when no page fetch raises and every
entry's price text parses, `scrape_books_to_scrape` returns a (possibly
empty) sequence; but a raising fetch (network error / timeout) is not
caught and propagates. -/
theorem C1_amended (fetch : ℕ → FetchResult) (pages : ℕ)
    (hraise : ∀ p ∈ (List.range pages).map (· + 1), fetch p ≠ .raised)
    (hprice : ∀ p ∈ (List.range pages).map (· + 1),
      ∀ e ∈ fetchEntries (fetch p), priceParses e.priceText = true) :
    (∃ books, scrape_books_to_scrape fetch pages = .ok books) ∧
    (∀ p ps status entries, fetch p = .response status entries → status ≠ 200 →
      scrapePages fetch (p :: ps) = scrapePages fetch ps) := by
  constructor
  · exact scrapePages_ok fetch _ hraise hprice
  · intro p ps status entries hf hs
    rw [scrapePages, hf]
    dsimp only
    rw [if_pos hs]

/-- Claim C1, witness: the amended theorem applied to a concrete oracle with
one 200 page and one 404 page. -/
theorem C1_witness :
    ((∀ p ∈ (List.range 2).map (· + 1), demoFetch p ≠ .raised) ∧
     (∀ p ∈ (List.range 2).map (· + 1),
       ∀ e ∈ fetchEntries (demoFetch p), priceParses e.priceText = true)) ∧
    ((∃ books, scrape_books_to_scrape demoFetch 2 = .ok books) ∧
     (∀ p ps status entries, demoFetch p = .response status entries → status ≠ 200 →
       scrapePages demoFetch (p :: ps) = scrapePages demoFetch ps)) :=
  ⟨⟨by decide, by decide⟩, C1_amended demoFetch 2 (by decide) (by decide)⟩

/-! ## Claim C2 -/

/-- Claim C2, counterexample: `recommend_books [] 5` does not return `[]`;
it raises the vectorizer's empty-vocabulary `ValueError`
(`fit_transform` on an empty corpus), refuting `recommend([], topN=5) = []`. -/
theorem C2_counterexample :
    recommend_books [] 5 = .error .emptyVocabulary := rfl

/-- Claim C2, amended: `recommend_books` on the empty sequence raises
(empty vocabulary) rather than returning `[]`; the empty-input guard lives
in the caller: the index route returns `[]` without invoking
`recommend_books` when no books were fetched. -/
theorem C2_amended :
    index_recommendations [] = .ok [] ∧
    recommend_books [] 5 = .error .emptyVocabulary :=
  ⟨rfl, rfl⟩

/-! ## Claim C3 -/

/-- Claim C3, counterexample: with two identical titles `"apple"`, the
stable descending sort for entry 1 places the tied pair of index 0 first,
the slice `[1:top_n+1]` drops that pair instead of the self-match, and the
self index 1 is selected — entry 1 recommends its own record. -/
theorem C3_counterexample :
    1 ∈ selectedIdx ([bApple, bApple].map Book.title) 1 5 ∧
    recommend_books [bApple, bApple] 5 =
      .ok [⟨"apple", ["apple"]⟩, ⟨"apple", ["apple"]⟩] := by
  constructor
  · have hm : [bApple, bApple].map Book.title = ["apple", "apple"] := rfl
    rw [hm, selectedIdx_aa_1]
    exact List.mem_singleton.mpr rfl
  · exact recommend_aa

/-- Claim C3, amended: the selected indices are the stable descending
ranking with its first element dropped and at most `topN` kept; the self
index `i` is excluded whenever every earlier index has similarity strictly
below the self-similarity and every later index at most it (in particular
whenever no other title ties the self-similarity); with an earlier duplicate
title the duplicate is dropped instead and `i` itself can be selected. -/
theorem C3_amended (titles : List String) (i top_n : ℕ) (hi : i < titles.length)
    (hlt : ∀ j, j < i → simMatrix titles i j < simMatrix titles i i)
    (hle : ∀ j, i < j → j < titles.length → simMatrix titles i j ≤ simMatrix titles i i) :
    i ∉ selectedIdx titles i top_n ∧ (selectedIdx titles i top_n).length ≤ top_n := by
  have hrow : simRow titles i =
      ((List.range i).map fun j => (j, simMatrix titles i j)) ++
        (i, simMatrix titles i i) ::
          ((List.range (titles.length - i - 1)).map fun t =>
            (i + t + 1, simMatrix titles i (i + t + 1))) := by
    rw [simRow, range_map_decomp titles.length i hi]
  have hsort : sortDesc (simRow titles i) =
      (i, simMatrix titles i i) ::
        sortDesc (((List.range i).map fun j => (j, simMatrix titles i j)) ++
          ((List.range (titles.length - i - 1)).map fun t =>
            (i + t + 1, simMatrix titles i (i + t + 1)))) := by
    rw [hrow]
    apply sortDesc_max_cons
    · intro a ha
      obtain ⟨j, hj, rfl⟩ := List.mem_map.mp ha
      exact hlt j (List.mem_range.mp hj)
    · intro b hb
      obtain ⟨t, ht, rfl⟩ := List.mem_map.mp hb
      have := List.mem_range.mp ht
      exact hle (i + t + 1) (by omega) (by omega)
  constructor
  · intro hmem
    rw [selectedIdx, hsort] at hmem
    simp only [List.drop_succ_cons, List.drop_zero] at hmem
    obtain ⟨p, hp, hpi⟩ := List.mem_map.mp hmem
    have hp1 : p ∈ sortDesc _ := List.mem_of_mem_take hp
    have hp2 := mem_sortDesc.mp hp1
    rcases List.mem_append.mp hp2 with h | h
    · obtain ⟨j, hj, rfl⟩ := List.mem_map.mp h
      have := List.mem_range.mp hj
      omega
    · obtain ⟨t, ht, rfl⟩ := List.mem_map.mp h
      omega
  · rw [selectedIdx, List.length_map]
    exact le_trans (List.length_take_le _ _) (le_refl _)

/-- Claim C3, witness: the amended theorem applied to the titles
`["apple", "banana"]` at index 0, whose similarity row is `[1, 0]`. -/
theorem C3_witness :
    0 ∉ selectedIdx ["apple", "banana"] 0 5 ∧
    (selectedIdx ["apple", "banana"] 0 5).length ≤ 5 :=
  C3_amended ["apple", "banana"] 0 5 (by decide)
    (fun j hj => absurd hj (Nat.not_lt_zero j))
    (fun j h1 h2 => by
      rw [show (["apple", "banana"] : List String).length = 2 from rfl] at h2
      have hj : j = 1 := by omega
      subst hj
      rw [simMatrix_ab_01, simMatrix_ab_00]
      norm_num)

/-! ## Claim C4 -/

/-- Claim C4, counterexample: a selected book whose price is missing makes
the order total `NaN` (modelled `none`): the missing price propagates into
the numeric result unguarded, refuting the claimed guard. -/
theorem C4_counterexample :
    order_total
      [{ title := "b", price := none, rating := some 3,
         source := "BooksToScrape", image := "" }] ["b"] = none := rfl

/-- Claim C4, amended: the `POST /order` total is the unguarded float sum of
the selected books' prices: when every selected price is present the total
is their sum; when any selected price is missing the whole total is `NaN`. -/
theorem C4_amended (books : List Book) (selected : List String) :
    order_total books selected =
      if ((books.filter fun b => b.title ∈ selected).map Book.price).all Option.isSome then
        some (((books.filter fun b => b.title ∈ selected).filterMap Book.price).sum)
      else none := by
  rw [order_total, foldl_addPy]
  by_cases hall : ((books.filter fun b => b.title ∈ selected).map Book.price).all Option.isSome
  · rw [if_pos hall, if_pos hall, zero_add, List.filterMap_map]
    simp
  · rw [if_neg hall, if_neg hall]

/-! ## Claim C5 -/

/-- Claim C5, counterexample: with one fetched book whose rating is missing
(no present rating at all), the index route's guard `if books` still invokes
`analyze_sentiments`, which computes `NaN` mean/max/min over the empty
rating series — the statistics are not treated as absent. -/
theorem C5_counterexample :
    index_stats [bNoRating] ≠ none ∧
    index_stats [bNoRating] = some ⟨none, none, none, 0, []⟩ := by
  constructor
  · intro h
    rw [index_stats, if_neg (by decide : ¬([bNoRating] = ([] : List Book)))] at h
    exact Option.some_ne_none _ h
  · decide

/-- Claim C5, amended: the index route guards only on the emptiness of the
fetched book list: with zero books the statistics are absent (`{}`), but
with a non-empty list whose ratings are all missing `analyze_sentiments` is
invoked and yields `NaN` average/max/min, count 0 and an empty
distribution. -/
theorem C5_amended (books : List Book) (h : books ≠ [])
    (hmiss : presentRatings books = []) :
    index_stats books = some (analyze_sentiments books) ∧
    analyze_sentiments books = ⟨none, none, none, 0, []⟩ ∧
    index_stats [] = none := by
  refine ⟨by rw [index_stats, if_neg h], ?_, by rw [index_stats, if_pos rfl]⟩
  simp only [analyze_sentiments, hmiss]
  rfl

/-- Claim C5, witness: the amended theorem applied to the one-book list with
a missing rating. -/
theorem C5_witness :
    ([bNoRating] ≠ ([] : List Book) ∧ presentRatings [bNoRating] = []) ∧
    (index_stats [bNoRating] = some (analyze_sentiments [bNoRating]) ∧
     analyze_sentiments [bNoRating] = ⟨none, none, none, 0, []⟩ ∧
     index_stats [] = none) :=
  ⟨⟨by decide, rfl⟩, C5_amended [bNoRating] (by decide) rfl⟩

/-! ## Claim C6 -/

/-- Claim C6: on every input with at least one present rating,
`analyze_sentiments` computes exactly the specification's statistics over
the present sub-sequence of ratings — mean rounded to two decimals, maximum,
minimum, count, and the distribution mapping each distinct present rating to
its occurrence count in ascending rating order. -/
theorem C6_theorem (books : List Book) (h : presentRatings books ≠ []) :
    analyze_sentiments books = ratingStatsSpec books := by
  simp only [analyze_sentiments, ratingStatsSpec]
  rw [seriesMax_eq, seriesMin_eq, value_counts_sorted, sortAsc_dedup_eq_sort,
    seriesMean, if_neg h]
  rfl

/-- Claim C6, witness: the theorem applied to the specification's example,
ratings `[3, 5, 4, 4, missing]`, giving average 4.0, max 5, min 3, count 4
and distribution `{3: 1, 4: 2, 5: 1}`. -/
theorem C6_witness :
    presentRatings demoRatingBooks ≠ [] ∧
    analyze_sentiments demoRatingBooks =
      { average_rating := some 4, highest_rating := some 5, lowest_rating := some 3,
        count := 4, rating_distribution := [(3, 1), (4, 2), (5, 1)] } :=
  ⟨by decide, (C6_theorem demoRatingBooks (by decide)).trans (by
    have hp : presentRatings demoRatingBooks = [3, 5, 4, 4] := rfl
    simp only [ratingStatsSpec, hp, RatingStats.mk.injEq]
    refine ⟨?_, by decide, by decide, by decide, ?_⟩
    · norm_num [pyRound2]
    · rw [← sortAsc_dedup_eq_sort]
      decide)⟩

/-! ## Claim C7 -/

/-- Claim C7: the `POST /order` total is the sum of the prices of the
fetched records whose title is selected (stated for selections whose matched
prices are all present, the regime in which the float sum is a number), and
selecting zero titles yields a total of 0. -/
theorem C7_theorem (books : List Book) (selected : List String)
    (h : ∀ b ∈ books.filter fun b => b.title ∈ selected, b.price.isSome) :
    order_total books selected =
      some (((books.filter fun b => b.title ∈ selected).filterMap Book.price).sum) ∧
    order_total books [] = some 0 := by
  constructor
  · rw [order_total, foldl_addPy, if_pos, zero_add, List.filterMap_map]
    · simp
    · rw [List.all_eq_true]
      intro o ho
      obtain ⟨b, hb, rfl⟩ := List.mem_map.mp ho
      exact h b hb
  · have hf : (books.filter fun b => b.title ∈ ([] : List String)) = [] := by simp
    rw [order_total, hf]
    rfl

/-- Claim C7, witness: the theorem applied to two concrete books with the
first title selected. -/
theorem C7_witness :
    (∀ b ∈ demoOrderBooks.filter fun b => b.title ∈ ["b1"], b.price.isSome) ∧
    (order_total demoOrderBooks ["b1"] =
      some (((demoOrderBooks.filter fun b => b.title ∈ ["b1"]).filterMap Book.price).sum) ∧
     order_total demoOrderBooks [] = some 0) :=
  ⟨by decide, C7_theorem demoOrderBooks ["b1"] (by decide)⟩

/-! ## Claim C8 -/

/-- Claim C8, counterexample: the price text `"."` cleans to the non-empty
string `"."`, which `float` rejects — extraction raises `ValueError` instead
of yielding a missing value, refuting "non-numeric input yields missing
rather than a failure". -/
theorem C8_counterexample :
    extract_price "." = .error (.valueError ".") := by decide

/-- Claim C8, amended: extraction strips every non-digit, non-period
character; `"£51.77"` yields 51.77 and an input whose cleaned form is empty
(such as `""` or `"abc"`) yields missing; but a non-empty cleaned string
that is not a float literal raises `ValueError`, which propagates. -/
theorem C8_amended (s : String) (h : cleanPrice s = "") :
    extract_price s = .ok none ∧
    extract_price "£51.77" = .ok (some (5177 / 100)) ∧
    extract_price "abc" = .ok none ∧
    ∀ t : String, ∀ c ∈ (cleanPrice t).toList, c.isDigit = true ∨ c = '.' := by
  refine ⟨by simp [extract_price, h], ?_, by decide, ?_⟩
  · have e : extract_price "£51.77" = .ok (some ((51 : ℚ) + (77 : ℚ) / 10 ^ 2)) := rfl
    rw [e]
    norm_num
  · intro t c hc
    have hc' : c ∈ t.toList.filter (fun c => c.isDigit || c == '.') := hc
    have := (List.mem_filter.mp hc').2
    rcases Bool.or_eq_true_iff.mp this with hd | he
    · exact Or.inl hd
    · exact Or.inr (by simpa using he)

/-- Claim C8, witness: the amended theorem applied to the letters-only price
text `"xyz"`. -/
theorem C8_witness :
    cleanPrice "xyz" = "" ∧
    (extract_price "xyz" = .ok none ∧
     extract_price "£51.77" = .ok (some (5177 / 100)) ∧
     extract_price "abc" = .ok none ∧
     ∀ t : String, ∀ c ∈ (cleanPrice t).toList, c.isDigit = true ∨ c = '.') :=
  ⟨rfl, C8_amended "xyz" rfl⟩

/-! ## Claim C9 -/

/-- Claim C9, counterexample: the title `"the"` consists only of stop words,
its tf-idf vector is zero, and its self-similarity in the matrix computed
for `["the", "apple"]` is 0.0, not the claimed 1.0. -/
theorem C9_counterexample :
    simMatrix ["the", "apple"] 0 0 = 0 ∧ simMatrix ["the", "apple"] 0 0 ≠ 1 :=
  ⟨simMatrix_ta_00, by rw [simMatrix_ta_00]; norm_num⟩

/-- Claim C9, amended: the similarity matrix is symmetric,
unconditionally for all indices `i`, `j`; the diagonal entry is 1.0 for
every document whose tf-idf vector is nonzero, while a title made only of
stop words (or of tokens shorter than two characters) has the zero vector
and self-similarity 0.0. -/
theorem C9_amended (titles : List String) (i j : ℕ) :
    simMatrix titles i j = simMatrix titles j i ∧
    (dotV titles i i ≠ 0 → simMatrix titles i i = 1) := by
  constructor
  · rw [simMatrix, simMatrix, dotV_comm titles i j, mul_comm]
  · intro h
    rw [simMatrix, Real.mul_self_sqrt (dotV_self_nonneg titles i)]
    exact div_self h

/-- Claim C9, witness: the amended theorem applied to `["apple", "banana"]`
at indices 0 and 1, the diagonal hypothesis discharged by the computed
nonzero self dot product. -/
theorem C9_witness :
    simMatrix ["apple", "banana"] 0 1 = simMatrix ["apple", "banana"] 1 0 ∧
    simMatrix ["apple", "banana"] 0 0 = 1 :=
  ⟨(C9_amended ["apple", "banana"] 0 1).1,
   (C9_amended ["apple", "banana"] 0 0).2 dotV_ab_00_ne_zero⟩

/-! ## Claim C10 -/

/-- Claim C10: whenever `recommend_books` returns an output, it has exactly
one entry per input record, entry `i` carries input record `i`'s title, and
every recommended title is the title of some input record. -/
theorem C10_theorem (books : List Book) (top_n : ℕ) (out : List RecEntry)
    (_hne : books ≠ []) (hok : recommend_books books top_n = .ok out) :
    out.map RecEntry.title = books.map Book.title ∧
    ∀ en ∈ out, ∀ r ∈ en.recs, r ∈ books.map Book.title := by
  simp only [recommend_books] at hok
  by_cases hv : vocab (books.map Book.title) = []
  · rw [if_pos hv] at hok
    exact absurd hok (by simp)
  · rw [if_neg hv] at hok
    replace hok := Except.ok.inj hok
    subst hok
    constructor
    · rw [List.map_map]
      exact map_range_getD (books.map Book.title) ""
    · intro en hen r hr
      obtain ⟨i, hi, rfl⟩ := List.mem_map.mp hen
      obtain ⟨j, hj, rfl⟩ := List.mem_map.mp hr
      have hjlt := selectedIdx_mem_lt hj
      rw [List.getD_eq_getElem _ _ hjlt]
      exact List.getElem_mem _

/-- Claim C10, witness: the theorem applied to the two-book list with titles
`"apple"` and `"banana"` and its computed output. -/
theorem C10_witness :
    ([⟨"apple", ["banana"]⟩, ⟨"banana", ["apple"]⟩] : List RecEntry).map RecEntry.title =
        [bApple, bBanana].map Book.title ∧
    ∀ en ∈ ([⟨"apple", ["banana"]⟩, ⟨"banana", ["apple"]⟩] : List RecEntry),
      ∀ r ∈ en.recs, r ∈ [bApple, bBanana].map Book.title :=
  C10_theorem [bApple, bBanana] 5 [⟨"apple", ["banana"]⟩, ⟨"banana", ["apple"]⟩]
    (by decide) recommend_ab

end BookHaven
